import Mathlib

/-!
Verification development for the ai_chat_bot repository.

Shallow embedding of:
* `context_manager.py` — the per-user bounded conversation store
  (`ContextManager.get_context`, `add_message`, `clear_context`,
  `get_user_ids`);
* `bot.py` — the provider-selection logic (`_active_provider`);
* `genapi_client.py` — the response extractor
  (`_extract_text_from_output`), the submit dispatch
  (`GenAPIClient.generate_response`) and the polling loop
  (`GenAPIClient._poll_until_done`);
* `ollama_client.py` / `openai_client.py` / `deepseek_client.py` /
  `proxyapi_client.py` — the exception-to-None boundary of
  `generate_response`.

Python machine details that matter are modelled explicitly: dict lookup
with insertion order, negative-index list slices, truthiness of values,
and the `except`-clause dispatch.
-/

namespace AiChatBot

/-! ### Messages and the eviction pass of `ContextManager.add_message` -/

/-- A chat message, the dict `{"role": r, "content": c}` of
`context_manager.py`. -/
structure Msg where
  role : String
  content : String
deriving DecidableEq, Repr

/-- Python slice `l[e:]` for an arbitrary (possibly negative) integer
start index `e`: non-negative `e` drops the first `e` elements, negative
`e` starts at `max 0 (len + e)`, i.e. keeps the last `-e` elements. -/
def pySliceFrom (e : Int) (l : List α) : List α :=
  if 0 ≤ e then l.drop e.toNat else l.drop (l.length - (-e).toNat)

/-- The predicate `msg.get("role") == "system"` used by the eviction pass
of `ContextManager.add_message` (context_manager.py lines 55-59). -/
def isSystem (m : Msg) : Bool := m.role == "system"

/-- The bound check of `ContextManager.add_message`
(context_manager.py lines 49-65): if the list is longer than
`max_messages`, partition it into system and non-system messages, slice
the non-system messages with the Python slice
`other_messages[-(max_messages - len(system_messages)):]` when they
alone exceed `max_messages`, and store the system messages followed by
the remaining non-system messages. -/
def evictPass (max_messages : Nat) (l : List Msg) : List Msg :=
  if l.length > max_messages then
    let parts := l.partition isSystem
    let other_messages :=
      if parts.2.length > max_messages then
        pySliceFrom ((parts.1.length : Int) - (max_messages : Int)) parts.2
      else parts.2
    parts.1 ++ other_messages
  else l

/-- The per-list core of `ContextManager.add_message`
(context_manager.py lines 43-65): append the new message, then run the
bound check. -/
def add_message_list (max_messages : Nat) (ctx : List Msg)
    (role content : String) : List Msg :=
  evictPass max_messages (ctx ++ [Msg.mk role content])

/-! ### The per-user dict `ContextManager.contexts` -/

/-- The dict `self.contexts : Dict[int, List[...]]`, modelled as an
insertion-ordered association list (CPython dicts preserve insertion
order). -/
abbrev Contexts := List (Nat × List Msg)

/-- Python `d.get(k)` / `k in d` on `self.contexts`. -/
def dictFind (s : Contexts) (k : Nat) : Option (List Msg) :=
  (s.find? (fun p => p.1 == k)).map (fun p => p.2)

/-- Python `d[k] = v`: overwrite in place when the key is present,
otherwise append the new key at the end. -/
def dictSet (s : Contexts) (k : Nat) (v : List Msg) : Contexts :=
  if (s.find? (fun p => p.1 == k)).isSome then
    s.map (fun p => if p.1 == k then (k, v) else p)
  else s ++ [(k, v)]

/-- Python `del d[k]` (guarded by `k in d` in the source, so simply a
filter). -/
def dictDel (s : Contexts) (k : Nat) : Contexts :=
  s.filter (fun p => p.1 != k)

/-- The `ContextManager` object of context_manager.py. -/
structure ContextManager where
  contexts : Contexts
  max_messages : Nat
deriving Repr

namespace ContextManager

/-- `ContextManager.__init__` with the given bound (default 20). -/
def init (max_messages : Nat := 20) : ContextManager :=
  ⟨[], max_messages⟩

/-- `ContextManager.get_context` (lines 17-29): create an empty entry
when the user is absent, return the stored list.  The returned pair is
(state after the call, returned list). -/
def get_context (cm : ContextManager) (user_id : Nat) :
    ContextManager × List Msg :=
  match dictFind cm.contexts user_id with
  | Option.none => ({ cm with contexts := dictSet cm.contexts user_id [] }, [])
  | Option.some l => (cm, l)

/-- `ContextManager.add_message` (lines 31-65): ensure the entry exists,
append the message, run the eviction pass. -/
def add_message (cm : ContextManager) (user_id : Nat)
    (role content : String) : ContextManager :=
  let cur := (dictFind cm.contexts user_id).getD []
  { cm with contexts :=
      (dictSet cm.contexts user_id
        (add_message_list cm.max_messages cur role content)) }

/-- `ContextManager.clear_context` (lines 67-76): delete the entry when
present. -/
def clear_context (cm : ContextManager) (user_id : Nat) : ContextManager :=
  { cm with contexts := dictDel cm.contexts user_id }

/-- `ContextManager.get_user_ids` (lines 78-85): the dict keys. -/
def get_user_ids (cm : ContextManager) : List Nat :=
  cm.contexts.map (fun p => p.1)

/-- `ContextManager.get_context_length` (lines 87-97). -/
def get_context_length (cm : ContextManager) (user_id : Nat) : Nat :=
  ((dictFind cm.contexts user_id).getD []).length

end ContextManager

/-- One observable operation on the store, used to state claims about
operation sequences. -/
inductive CtxOp
  | add (user_id : Nat) (role content : String)
  | get (user_id : Nat)
  | clear (user_id : Nat)
deriving DecidableEq, Repr

/-- The user id an operation targets. -/
def CtxOp.targetUid : CtxOp → Nat
  | .add u _ _ => u
  | .get u => u
  | .clear u => u

/-- Apply one operation to the store (the value returned by `get` is
discarded; only the state evolution matters here). -/
def applyCtxOp (cm : ContextManager) : CtxOp → ContextManager
  | .add u role content => cm.add_message u role content
  | .get u => (cm.get_context u).1
  | .clear u => cm.clear_context u

/-- Run a sequence of operations left to right. -/
def runCtxOps (cm : ContextManager) (ops : List CtxOp) : ContextManager :=
  ops.foldl applyCtxOp cm

/-- Run a sequence of `add_message` calls, starting from a fresh store
with the given bound. -/
def runAdds (max_messages : Nat) (ops : List (Nat × String × String)) :
    ContextManager :=
  ops.foldl (fun cm op => cm.add_message op.1 op.2.1 op.2.2)
    (ContextManager.init max_messages)

/-- Keep the `n` most recent (last) elements of a list. -/
def keepLast (n : Nat) (l : List α) : List α := l.drop (l.length - n)

/-! ### Dictionary lemmas -/

theorem find?_map_set_self (s : Contexts) (k : Nat) (v : List Msg)
    (h : (List.find? (fun p => p.1 == k) s).isSome = true) :
    List.find? (fun p => p.1 == k)
        (s.map (fun p => if p.1 == k then (k, v) else p)) = some (k, v) := by
  induction s with
  | nil => simp at h
  | cons p rest ih =>
    cases hb : (p.1 == k) with
    | true =>
      simp only [List.map_cons, hb, if_true]
      exact List.find?_cons_of_pos _ (by simp)
    | false =>
      simp only [List.map_cons, hb, if_false]
      rw [List.find?_cons_of_neg _ (by simp [hb])]
      rw [List.find?_cons_of_neg _ (by simp [hb])] at h
      exact ih h

theorem find?_map_set_ne (s : Contexts) (k k' : Nat) (v : List Msg)
    (hne : k' ≠ k) :
    List.find? (fun p => p.1 == k')
        (s.map (fun p => if p.1 == k then (k, v) else p))
      = List.find? (fun p => p.1 == k') s := by
  induction s with
  | nil => simp
  | cons p rest ih =>
    cases hb : (p.1 == k) with
    | true =>
      have hp : p.1 = k := by simpa using hb
      simp only [List.map_cons, hb, if_true]
      rw [List.find?_cons_of_neg _ (by simp [Ne.symm hne]),
          List.find?_cons_of_neg _ (by simp [hp, Ne.symm hne])]
      exact ih
    | false =>
      simp only [List.map_cons, hb, if_false]
      cases hb' : (p.1 == k') with
      | true =>
        rw [List.find?_cons_of_pos _ (by simp [hb']),
            List.find?_cons_of_pos _ (by simp [hb'])]
        simp [hb]
      | false =>
        rw [List.find?_cons_of_neg _ (by simp [hb']),
            List.find?_cons_of_neg _ (by simp [hb'])]
        exact ih

theorem dictFind_dictSet_self (s : Contexts) (k : Nat) (v : List Msg) :
    dictFind (dictSet s k v) k = some v := by
  unfold dictFind dictSet
  split
  next h => rw [find?_map_set_self s k v h]; rfl
  next h =>
    have hn : List.find? (fun p => p.1 == k) s = Option.none := by
      cases hf : List.find? (fun p => p.1 == k) s with
      | none => rfl
      | some p => rw [hf] at h; simp at h
    rw [List.find?_append, hn]
    simp

theorem dictFind_dictSet_ne (s : Contexts) (k k' : Nat) (v : List Msg)
    (hne : k' ≠ k) :
    dictFind (dictSet s k v) k' = dictFind s k' := by
  unfold dictFind dictSet
  split
  next => rw [find?_map_set_ne s k k' v hne]
  next =>
    rw [List.find?_append]
    have : List.find? (fun p => p.1 == k') [(k, v)] = Option.none := by
      rw [List.find?_cons_of_neg _ (by simp [Ne.symm hne])]
      rfl
    rw [this]
    cases List.find? (fun p => p.1 == k') s <;> rfl

theorem dictFind_dictDel_self (s : Contexts) (k : Nat) :
    dictFind (dictDel s k) k = Option.none := by
  unfold dictFind dictDel
  induction s with
  | nil => rfl
  | cons p rest ih =>
    cases hb : (p.1 == k) with
    | true =>
      simp only [List.filter_cons, bne, hb, Bool.not_true, if_false]
      exact ih
    | false =>
      simp only [List.filter_cons, bne, hb, Bool.not_false, if_true]
      rw [List.find?_cons_of_neg _ (by simp [hb])]
      exact ih

theorem dictFind_dictDel_ne (s : Contexts) (k k' : Nat) (hne : k' ≠ k) :
    dictFind (dictDel s k) k' = dictFind s k' := by
  unfold dictFind dictDel
  induction s with
  | nil => rfl
  | cons p rest ih =>
    cases hb : (p.1 == k) with
    | true =>
      have hp : p.1 = k := by simpa using hb
      simp only [List.filter_cons, bne, hb, Bool.not_true, if_false]
      rw [List.find?_cons_of_neg _ (by simp [hp, Ne.symm hne])]
      exact ih
    | false =>
      simp only [List.filter_cons, bne, hb, Bool.not_false, if_true]
      cases hb' : (p.1 == k') with
      | true =>
        rw [List.find?_cons_of_pos _ (by simp [hb']),
            List.find?_cons_of_pos _ (by simp [hb'])]
      | false =>
        rw [List.find?_cons_of_neg _ (by simp [hb']),
            List.find?_cons_of_neg _ (by simp [hb'])]
        exact ih

theorem dictFind_eq_none_iff (s : Contexts) (k : Nat) :
    dictFind s k = Option.none ↔ k ∉ s.map (fun p => p.1) := by
  unfold dictFind
  rw [Option.map_eq_none', List.find?_eq_none]
  simp only [List.mem_map, beq_iff_eq]
  constructor
  · rintro h ⟨p, hp, rfl⟩
    exact h p hp rfl
  · rintro h p hp hk
    exact h ⟨p, hp, hk⟩

/-! ### Lemmas about the eviction pass -/

theorem pySliceFrom_subset (e : Int) (l : List α) : pySliceFrom e l ⊆ l := by
  unfold pySliceFrom
  split <;> exact List.drop_subset _ _

/-- With no system message in the list, the eviction pass enforces the
bound (for a positive bound): all messages count as `other_messages`, so
the slice keeps the `max_messages` most recent ones. -/
theorem evictPass_no_system (maxM : Nat) (l : List Msg)
    (hmax : 1 ≤ maxM) (hall : ∀ m ∈ l, isSystem m = false) :
    (evictPass maxM l).length ≤ maxM
    ∧ ∀ m ∈ evictPass maxM l, isSystem m = false := by
  have hfil1 : l.filter isSystem = [] :=
    List.filter_eq_nil_iff.mpr (fun m hm => by simp [hall m hm])
  have hfil2 : l.filter (fun m => !isSystem m) = l :=
    List.filter_eq_self.mpr (fun m hm => by simp [hall m hm])
  unfold evictPass
  split
  next hgt =>
    rw [List.partition_eq_filter_filter]
    simp only [Function.comp_def]
    simp only [hfil1, hfil2, List.length_nil, List.nil_append]
    rw [if_pos hgt]
    have hneg : ¬ (0 : Int) ≤ (0 : Nat) - (maxM : Int) := by
      push_cast
      omega
    unfold pySliceFrom
    rw [if_neg (by simpa using hneg)]
    have htn : ((-(((0 : Nat) : Int) - (maxM : Int))).toNat) = maxM := by omega
    rw [htn]
    constructor
    · rw [List.length_drop]
      omega
    · intro m hm
      exact hall m (List.drop_subset _ _ hm)
  next hle =>
    exact ⟨by omega, hall⟩

/-- The eviction pass never loses a system message: the system messages
of the result are exactly those of the input, in order. -/
theorem evictPass_filter_system (maxM : Nat) (l : List Msg) :
    (evictPass maxM l).filter isSystem = l.filter isSystem := by
  unfold evictPass
  split
  next hgt =>
    rw [List.partition_eq_filter_filter]
    simp only [Function.comp_def]
    have h1 : (l.filter isSystem).filter isSystem = l.filter isSystem :=
      List.filter_eq_self.mpr (fun m hm => (List.mem_filter.mp hm).2)
    have hsub : ∀ (o : List Msg), o ⊆ l.filter (fun m => !isSystem m) →
        o.filter isSystem = [] := by
      intro o ho
      apply List.filter_eq_nil_iff.mpr
      intro m hm
      have := (List.mem_filter.mp (ho hm)).2
      simp only [Bool.not_eq_true'] at this
      simp [this]
    rw [List.filter_append, h1]
    split
    next =>
      rw [hsub _ (List.Subset.trans (pySliceFrom_subset _ _)
        (fun _ h => h))]
      simp
    next =>
      rw [hsub _ (fun _ h => h)]
      simp
  next => rfl

/-- Whenever the eviction pass actually runs, its result puts every
system message (in order) before every non-system message. -/
theorem evictPass_system_first (maxM : Nat) (l : List Msg)
    (hgt : l.length > maxM) :
    ∃ a b, evictPass maxM l = a ++ b
      ∧ (∀ m ∈ a, isSystem m = true) ∧ (∀ m ∈ b, isSystem m = false) := by
  unfold evictPass
  rw [if_pos hgt, List.partition_eq_filter_filter]
  simp only [Function.comp_def]
  refine ⟨l.filter isSystem, _, rfl, ?_, ?_⟩
  · intro m hm
    exact (List.mem_filter.mp hm).2
  · intro m hm
    have hm' : m ∈ l.filter (fun m => !isSystem m) := by
      revert hm
      split
      · exact fun hm => pySliceFrom_subset _ _ hm
      · exact fun hm => hm
    have := (List.mem_filter.mp hm').2
    simpa using this

/-- When the non-system messages alone exceed the bound (and there are
fewer than `max_messages` system messages), the eviction pass keeps all
system messages followed by the `max_messages - count(system)` most
recent non-system messages. -/
theorem evictPass_truncates (maxM : Nat) (l : List Msg)
    (hgt : (l.filter (fun m => !isSystem m)).length > maxM)
    (hsys : (l.filter isSystem).length < maxM) :
    evictPass maxM l
      = l.filter isSystem
        ++ keepLast (maxM - (l.filter isSystem).length)
            (l.filter (fun m => !isSystem m)) := by
  have hlen : l.length > maxM :=
    lt_of_lt_of_le hgt (List.length_filter_le _ _)
  unfold evictPass
  rw [if_pos hlen, List.partition_eq_filter_filter]
  simp only [Function.comp_def]
  rw [if_pos hgt]
  unfold pySliceFrom keepLast
  have hneg : ¬ (0 : Int) ≤ ((l.filter isSystem).length : Int) - (maxM : Int) := by
    omega
  rw [if_neg hneg]
  have htn : (-(((l.filter isSystem).length : Int) - (maxM : Int))).toNat
      = maxM - (l.filter isSystem).length := by omega
  rw [htn]

/-- When the whole list exceeds the bound but the non-system messages do
not, the eviction pass removes nothing: it only moves the system
messages to the front. -/
theorem evictPass_no_truncation (maxM : Nat) (l : List Msg)
    (hgt : l.length > maxM)
    (hle : (l.filter (fun m => !isSystem m)).length ≤ maxM) :
    evictPass maxM l
      = l.filter isSystem ++ l.filter (fun m => !isSystem m) := by
  unfold evictPass
  rw [if_pos hgt, List.partition_eq_filter_filter]
  simp only [Function.comp_def]
  rw [if_neg (by omega)]

/-- One `add_message` step preserves boundedness and absence of system
messages in a user's list (for a positive bound and a non-system
role). -/
theorem add_message_list_step (maxM : Nat) (cur : List Msg)
    (role content : String)
    (hmax : 1 ≤ maxM) (hcur : ∀ m ∈ cur, isSystem m = false)
    (hrole : role ≠ "system") :
    (add_message_list maxM cur role content).length ≤ maxM
    ∧ ∀ m ∈ add_message_list maxM cur role content, isSystem m = false := by
  unfold add_message_list
  apply evictPass_no_system maxM _ hmax
  intro m hm
  rcases List.mem_append.mp hm with h | h
  · exact hcur m h
  · rcases List.mem_singleton.mp h with rfl
    simp [isSystem, hrole]

/-- The boundedness invariant survives any sequence of `add_message`
calls whose roles are never the string system. -/
theorem runAdds_inv (maxM : Nat) (hmax : 1 ≤ maxM)
    (ops : List (Nat × String × String))
    (hroles : ∀ op ∈ ops, op.2.1 ≠ "system")
    (cm : ContextManager) (hcm : cm.max_messages = maxM)
    (hinv : ∀ k l, dictFind cm.contexts k = some l →
      l.length ≤ maxM ∧ ∀ m ∈ l, isSystem m = false) :
    ∀ k l,
      dictFind
        (ops.foldl (fun cm op => cm.add_message op.1 op.2.1 op.2.2)
          cm).contexts k = some l →
      l.length ≤ maxM ∧ ∀ m ∈ l, isSystem m = false := by
  induction ops generalizing cm with
  | nil => exact hinv
  | cons op rest ih =>
    simp only [List.foldl_cons]
    apply ih (fun o ho => hroles o (List.mem_cons_of_mem _ ho))
    · simp [ContextManager.add_message, hcm]
    · intro k l hfind
      by_cases hk : k = op.1
      · subst hk
        rw [ContextManager.add_message] at hfind
        simp only at hfind
        rw [dictFind_dictSet_self] at hfind
        obtain rfl := (Option.some.inj hfind).symm
        rw [hcm]
        cases hf : dictFind cm.contexts op.1 with
        | none =>
          exact add_message_list_step maxM [] op.2.1 op.2.2 hmax
            (by intro m hm; simp at hm) (hroles op (List.mem_cons_self _ _))
        | some l0 =>
          exact add_message_list_step maxM l0 op.2.1 op.2.2 hmax
            ((hinv op.1 l0 hf).2) (hroles op (List.mem_cons_self _ _))
      · rw [ContextManager.add_message] at hfind
        simp only at hfind
        rw [dictFind_dictSet_ne _ _ _ _ hk] at hfind
        exact hinv k l hfind

/-- C1 (amended): for every user id, every positive bound and every
sequence of `add_message` calls whose roles never equal the string
system, after the sequence (hence after each call, since the statement
quantifies over all sequences) the length of the user's context is at
most `max_messages`. -/
theorem context_length_bounded (maxM : Nat)
    (ops : List (Nat × String × String)) (uid : Nat)
    (hmax : 1 ≤ maxM)
    (hroles : ∀ op ∈ ops, op.2.1 ≠ "system") :
    (runAdds maxM ops).get_context_length uid ≤ maxM := by
  have h := runAdds_inv maxM hmax ops hroles (ContextManager.init maxM) rfl
    (by intro k l hf; simp [dictFind, ContextManager.init] at hf)
  unfold ContextManager.get_context_length
  cases hf : dictFind (runAdds maxM ops).contexts uid with
  | none => simp
  | some l => simpa using (h uid l hf).1

/-- Applying `context_length_bounded` at a concrete input. -/
theorem context_length_bounded_witness :
    (runAdds 1 [(0, "user", "a"), (0, "user", "b")]).get_context_length 0
      ≤ 1 :=
  context_length_bounded 1 [(0, "user", "a"), (0, "user", "b")] 0
    (by decide) (by decide)

/-- C1 counterexample: with `max_messages = 1`, appending a system
message and then a user message leaves a context of length 2, violating
the claimed invariant `len(context) <= max_messages`. -/
theorem context_length_bounded_cex :
    (runAdds 1 [(0, "system", "s"), (0, "user", "a")]).get_context_length 0
        = 2
    ∧ ¬ (runAdds 1 [(0, "system", "s"), (0, "user", "a")]).get_context_length
          0 ≤ 1 := by
  constructor
  · rfl
  · intro h
    have : (2 : Nat) ≤ 1 := by
      have he :
          (runAdds 1 [(0, "system", "s"), (0, "user", "a")]).get_context_length
            0 = 2 := rfl
      rw [he] at h
      exact h
    omega

/-- C2 (amended): the eviction behaviour of `add_message`.  When the
non-system messages alone exceed `max_messages` (and there are fewer
than `max_messages` system messages), the call keeps all system
messages, in order, followed by the `max_messages - count(system)` most
recent non-system messages.  When the total exceeds `max_messages` but
the non-system messages do not, nothing is evicted: the call only moves
the system messages to the front. -/
theorem add_message_evict (maxM : Nat) (ctx : List Msg)
    (role content : String) :
    (((ctx ++ [Msg.mk role content]).filter (fun m => !isSystem m)).length > maxM →
      ((ctx ++ [Msg.mk role content]).filter isSystem).length < maxM →
      add_message_list maxM ctx role content
        = (ctx ++ [Msg.mk role content]).filter isSystem
          ++ keepLast
              (maxM - ((ctx ++ [Msg.mk role content]).filter isSystem).length)
              ((ctx ++ [Msg.mk role content]).filter (fun m => !isSystem m)))
    ∧ ((ctx ++ [Msg.mk role content]).length > maxM →
      ((ctx ++ [Msg.mk role content]).filter (fun m => !isSystem m)).length ≤ maxM →
      add_message_list maxM ctx role content
        = (ctx ++ [Msg.mk role content]).filter isSystem
          ++ (ctx ++ [Msg.mk role content]).filter (fun m => !isSystem m)) := by
  constructor
  · intro hgt hsys
    exact evictPass_truncates maxM _ hgt hsys
  · intro hgt hle
    exact evictPass_no_truncation maxM _ hgt hle

/-- Applying `add_message_evict` at a concrete input: with
`max_messages = 2`, one system and three user messages, the call keeps
the system message and the single most recent user message. -/
theorem add_message_evict_witness :
    add_message_list 2
        [Msg.mk "system" "s", Msg.mk "user" "a", Msg.mk "user" "b"] "user" "c"
      = [Msg.mk "system" "s", Msg.mk "user" "c"] := by
  have h := (add_message_evict 2
    [Msg.mk "system" "s", Msg.mk "user" "a", Msg.mk "user" "b"] "user" "c").1
    (by decide) (by decide)
  exact h.trans (by decide)

/-- C2 counterexample: with `max_messages = 2`, a context
`[system, user a]` and an append of `user b`, the context goes over the
bound (3 > 2) but eviction removes nothing — the two non-system
messages are both kept, not only the `max_messages - count(system) = 1`
most recent one as the claim states. -/
theorem add_message_evict_cex :
    add_message_list 2 [Msg.mk "system" "s", Msg.mk "user" "a"] "user" "b"
        = [Msg.mk "system" "s", Msg.mk "user" "a", Msg.mk "user" "b"]
    ∧ add_message_list 2 [Msg.mk "system" "s", Msg.mk "user" "a"] "user" "b"
        ≠ [Msg.mk "system" "s", Msg.mk "user" "b"] := by
  constructor
  · rfl
  · decide

/-- C10: `add_message` never discards a system message, regardless of
its position (the system messages of the result are exactly those of
the appended list, in order), and whenever the eviction pass runs (the
appended list exceeds the bound) the result places every system message
before every non-system message. -/
theorem add_message_keeps_system (maxM : Nat) (ctx : List Msg)
    (role content : String) :
    (add_message_list maxM ctx role content).filter isSystem
        = (ctx ++ [Msg.mk role content]).filter isSystem
    ∧ ((ctx ++ [Msg.mk role content]).length > maxM →
      ∃ a b, add_message_list maxM ctx role content = a ++ b
        ∧ (∀ m ∈ a, isSystem m = true) ∧ (∀ m ∈ b, isSystem m = false)) :=
  ⟨evictPass_filter_system maxM _,
   fun hgt => evictPass_system_first maxM _ hgt⟩

/-- Applying `add_message_keeps_system` at a concrete input: a system
message appended to a full context of user messages is reordered to the
front and kept. -/
theorem add_message_keeps_system_witness :
    (add_message_list 1 [Msg.mk "user" "a"] "system" "x").filter isSystem
        = ([Msg.mk "user" "a", Msg.mk "system" "x"] : List Msg).filter isSystem
    ∧ ∃ a b, add_message_list 1 [Msg.mk "user" "a"] "system" "x" = a ++ b
        ∧ (∀ m ∈ a, isSystem m = true) ∧ (∀ m ∈ b, isSystem m = false) :=
  ⟨(add_message_keeps_system 1 [Msg.mk "user" "a"] "system" "x").1,
   (add_message_keeps_system 1 [Msg.mk "user" "a"] "system" "x").2 (by decide)⟩

/-! ### C9: clear followed by get, and the user-id listing -/

/-- A user absent from the store stays absent across any operations that
target other users. -/
theorem runCtxOps_absent (uid : Nat) (ops : List CtxOp)
    (cm : ContextManager)
    (hops : ∀ op ∈ ops, op.targetUid ≠ uid)
    (h : dictFind cm.contexts uid = Option.none) :
    dictFind (runCtxOps cm ops).contexts uid = Option.none := by
  induction ops generalizing cm with
  | nil => exact h
  | cons op rest ih =>
    unfold runCtxOps
    simp only [List.foldl_cons]
    apply ih _ (fun o ho => hops o (List.mem_cons_of_mem _ ho))
    have hne : op.targetUid ≠ uid := hops op (List.mem_cons_self _ _)
    cases op with
    | add u role content =>
      simp only [CtxOp.targetUid] at hne
      simp only [applyCtxOp, ContextManager.add_message]
      rw [dictFind_dictSet_ne _ _ _ _ (Ne.symm hne)]
      exact h
    | get u =>
      simp only [CtxOp.targetUid] at hne
      simp only [applyCtxOp, ContextManager.get_context]
      cases hf : dictFind cm.contexts u with
      | none =>
        simp only
        rw [dictFind_dictSet_ne _ _ _ _ (Ne.symm hne)]
        exact h
      | some l => exact h
    | clear u =>
      simp only [CtxOp.targetUid] at hne
      simp only [applyCtxOp, ContextManager.clear_context]
      rw [dictFind_dictDel_ne _ _ _ (Ne.symm hne)]
      exact h

/-- C9: after `clear(user)`, a `get(user)` returns the empty sequence,
and the user stays absent from `get_user_ids` across any further
operations that target other users (i.e. until the next `append`/`get`
for that user). -/
theorem clear_context_spec (cm : ContextManager) (uid : Nat)
    (ops : List CtxOp)
    (hops : ∀ op ∈ ops, op.targetUid ≠ uid) :
    ((runCtxOps (cm.clear_context uid) ops).get_context uid).2 = []
    ∧ uid ∉ (runCtxOps (cm.clear_context uid) ops).get_user_ids := by
  have habs :
      dictFind (runCtxOps (cm.clear_context uid) ops).contexts uid
        = Option.none := by
    apply runCtxOps_absent uid ops _ hops
    simp only [ContextManager.clear_context]
    exact dictFind_dictDel_self cm.contexts uid
  constructor
  · unfold ContextManager.get_context
    rw [habs]
  · exact (dictFind_eq_none_iff _ uid).mp habs

/-- Applying `clear_context_spec` at a concrete input: user 0 is cleared
while user 1 keeps operating; user 0 reads empty and is not listed. -/
theorem clear_context_spec_witness :
    ((runCtxOps
        ((runAdds 2 [(0, "user", "a"), (1, "user", "b")]).clear_context 0)
        [CtxOp.add 1 "user" "c"]).get_context 0).2 = []
    ∧ 0 ∉ (runCtxOps
        ((runAdds 2 [(0, "user", "a"), (1, "user", "b")]).clear_context 0)
        [CtxOp.add 1 "user" "c"]).get_user_ids :=
  clear_context_spec (runAdds 2 [(0, "user", "a"), (1, "user", "b")]) 0
    [CtxOp.add 1 "user" "c"] (by decide)

/-! ### Provider selection (bot.py lines 74-113) -/

/-- The errors the startup selection can raise — the two reachable
`RuntimeError`s of bot.py.  The raise at bot.py lines 93-96 (provider
chosen in `AI_PROVIDER` but failed to initialize) is dead code: it
directly follows the unconditional raise of line 90 inside the
`AI_PROVIDER not in provider_map` branch, so no constructor models
it. -/
inductive SelectError
  | unknownProviderKey
  | noProviderAvailable
deriving DecidableEq, Repr

/-- The fixed priority order of bot.py lines 98-104 (also the keys of
`provider_map`, lines 77-83). -/
def providerOrder : List String :=
  ["ollama", "openai", "deepseek", "genapi", "proxyapi"]

/-- The selection logic of bot.py lines 74-113.  `aiProvider` is the
(possibly unset) `AI_PROVIDER`; `constructible k` says whether client
`k` was built (is not `None`).  With an explicit key: look it up in
`provider_map`; if its client exists select it; if the key is not
recognized raise the unknown-key error (line 90); if the key is
recognized but its client is `None`, no raise fires in that branch (the
raise of lines 93-96 is unreachable), so control falls through to the
final check and raises the no-provider-available error (line 111).
With no explicit key: select the first constructible client in
`providerOrder`, else the no-provider-available error. -/
def selectProvider (aiProvider : Option String)
    (constructible : String → Bool) : Except SelectError String :=
  match aiProvider with
  | Option.some key =>
    if providerOrder.contains key then
      if constructible key then Except.ok key
      else Except.error SelectError.noProviderAvailable
    else Except.error SelectError.unknownProviderKey
  | Option.none =>
    match providerOrder.find? constructible with
    | Option.some k => Except.ok k
    | Option.none => Except.error SelectError.noProviderAvailable

/-- C3 (code bug): at the spec example — explicit key openai,
recognized but not constructible, while ollama is constructible — the
process fails with the same error as the empty-result case (bot.py line
111), not with a distinct provider-not-constructible error, because the
raise intended for that case (lines 93-96) is unreachable.  The other
half of the claim does hold: an unrecognized explicit key fails with
the unknown-key error and never falls back. -/
theorem select_explicit_unconstructible :
    selectProvider (Option.some "openai") (fun k => k == "ollama")
        = Except.error SelectError.noProviderAvailable
    ∧ selectProvider (Option.some "bogus") (fun k => k == "ollama")
        = Except.error SelectError.unknownProviderKey := by
  constructor <;> rfl

/-- C8: with no explicit key the selection scans the fixed priority
order `[ollama, openai, deepseek, genapi, proxyapi]` and yields the
first constructible provider (decision-tree form); in particular when
exactly deepseek is constructible it is selected, and individual
construction failures are non-fatal: any constructible provider in the
order yields a successful selection. -/
theorem select_priority_order (c : String → Bool) :
    (selectProvider Option.none c =
      if c "ollama" then Except.ok "ollama"
      else if c "openai" then Except.ok "openai"
      else if c "deepseek" then Except.ok "deepseek"
      else if c "genapi" then Except.ok "genapi"
      else if c "proxyapi" then Except.ok "proxyapi"
      else Except.error SelectError.noProviderAvailable)
    ∧ ((∀ k, c k = (k == "deepseek")) →
        selectProvider Option.none c = Except.ok "deepseek")
    ∧ ((∃ k ∈ providerOrder, c k = true) →
        ∃ k, selectProvider Option.none c = Except.ok k ∧ c k = true) := by
  have hmain : selectProvider Option.none c =
      if c "ollama" then Except.ok "ollama"
      else if c "openai" then Except.ok "openai"
      else if c "deepseek" then Except.ok "deepseek"
      else if c "genapi" then Except.ok "genapi"
      else if c "proxyapi" then Except.ok "proxyapi"
      else Except.error SelectError.noProviderAvailable := by
    unfold selectProvider providerOrder
    cases h1 : c "ollama" <;> cases h2 : c "openai" <;>
      cases h3 : c "deepseek" <;> cases h4 : c "genapi" <;>
        cases h5 : c "proxyapi" <;>
      simp [List.find?, h1, h2, h3, h4, h5]
  refine ⟨hmain, ?_, ?_⟩
  · intro h
    rw [hmain, h "ollama", h "openai", h "deepseek"]
    rfl
  · rintro ⟨k, hk, hck⟩
    have hs : (providerOrder.find? c).isSome :=
      List.find?_isSome.mpr ⟨k, hk, hck⟩
    obtain ⟨k2, hk2⟩ := Option.isSome_iff_exists.mp hs
    exact ⟨k2, by simp [selectProvider, hk2], List.find?_some hk2⟩

/-- Applying `select_priority_order` with exactly deepseek
constructible. -/
theorem select_priority_order_witness :
    selectProvider Option.none (fun k => k == "deepseek")
        = Except.ok "deepseek" :=
  (select_priority_order (fun k => k == "deepseek")).2.1 (fun _ => rfl)


/-! ### Python values and the GenAPI response extractor
(genapi_client.py lines 31-93) -/

/-- An untyped Python/JSON value as handled by genapi_client.py:
`None`, bool, int, str, list, dict (string keys, insertion order). -/
inductive PyVal
  | none
  | bool (b : Bool)
  | int (n : Int)
  | str (s : String)
  | list (xs : List PyVal)
  | dict (entries : List (String × PyVal))
deriving Repr

/-- Python truthiness: `None`, `False`, `0`, the empty string, the
empty list and the empty dict are falsy. -/
def PyVal.truthy : PyVal → Bool
  | .none => false
  | .bool b => b
  | .int n => n != 0
  | .str s => s != ""
  | .list xs => !xs.isEmpty
  | .dict es => !es.isEmpty

/-- Python `a or b`. -/
def pyOr (a b : PyVal) : PyVal := if a.truthy then a else b

/-- Python `d.get(k)` on a dict value: the first entry with that key,
`None` when absent. -/
def pyGet (es : List (String × PyVal)) (k : String) : PyVal :=
  match es.find? (fun p => p.1 == k) with
  | Option.some p => p.2
  | Option.none => PyVal.none

/-- A single-quote character, for rendering Python `repr`. -/
def quoteChar : String := String.singleton (Char.ofNat 39)

mutual
/-- Python `repr` of a value (string escaping is not reproduced; only
`" ".join(str(x) for x in output)` at genapi_client.py line 40 can
observe this rendering). -/
def pyRepr : PyVal → String
  | .none => "None"
  | .bool b => if b then "True" else "False"
  | .int n => toString n
  | .str s => quoteChar ++ s ++ quoteChar
  | .list xs => "[" ++ String.intercalate ", " (pyReprList xs) ++ "]"
  | .dict es => "\x7b" ++ String.intercalate ", " (pyReprDict es) ++ "\x7d"

/-- `repr` of each element of a list value. -/
def pyReprList : List PyVal → List String
  | [] => []
  | x :: rest => pyRepr x :: pyReprList rest

/-- `repr` of each `key: value` entry of a dict value. -/
def pyReprDict : List (String × PyVal) → List String
  | [] => []
  | (k, v) :: rest =>
      (quoteChar ++ k ++ quoteChar ++ ": " ++ pyRepr v) :: pyReprDict rest
end

/-- Python `str(x)`: the string itself for a str, `repr` otherwise. -/
def pyStr : PyVal → String
  | .str s => s
  | v => pyRepr v

/-- Python `s.strip()` (drop leading and trailing whitespace; Unicode
whitespace beyond space/tab/CR/LF is not modelled). -/
def pyStrip (s : String) : String :=
  String.mk
    (((s.data.dropWhile Char.isWhitespace).reverse.dropWhile
        Char.isWhitespace).reverse)

/-- Python `s.strip() or None` (an all-whitespace string is falsy after
stripping, so it becomes `None`). -/
def stripOrNone (s : String) : Option String :=
  if pyStrip s == "" then Option.none else Option.some (pyStrip s)

/-- The inner part loop shared by genapi_client.py lines 53-57, 65-69
and 87-91: for each part that is a dict with `type == "text"` and a
string `text` field, return `text.strip() or None`.  `some r` means the
loop returned `r` (possibly `None`); `none` means it fell through. -/
def scanParts : List PyVal → Option (Option String)
  | [] => Option.none
  | p :: rest =>
    match p with
    | .dict es =>
      match pyGet es "type" with
      | .str t =>
        if t == "text" then
          match pyGet es "text" with
          | .str s => Option.some (stripOrNone s)
          | _ => scanParts rest
        else scanParts rest
      | _ => scanParts rest
    | _ => scanParts rest

/-- Lines 44-48: `msg = item.get("message")`; a dict `msg` with a
string `content` returns `content.strip() or None`, anything else falls
through. -/
def msgContentHit (es : List (String × PyVal)) : Option (Option String) :=
  match pyGet es "message" with
  | .dict mes =>
    match pyGet mes "content" with
    | .str c => Option.some (stripOrNone c)
    | _ => Option.none
  | _ => Option.none

/-- Lines 49-57: `text = item.get("text") or item.get("content")`; a
string returns directly, a list runs the part loop, anything else falls
through to the next item. -/
def textFieldHit (es : List (String × PyVal)) : Option (Option String) :=
  match pyOr (pyGet es "text") (pyGet es "content") with
  | .str s => Option.some (stripOrNone s)
  | .list parts => scanParts parts
  | _ => Option.none

/-- First item loop over a list output (lines 41-57). -/
def scanItems1 : List PyVal → Option (Option String)
  | [] => Option.none
  | item :: rest =>
    match item with
    | .dict es =>
      match msgContentHit es with
      | Option.some r => Option.some r
      | Option.none =>
        match textFieldHit es with
        | Option.some r => Option.some r
        | Option.none => scanItems1 rest
    | _ => scanItems1 rest

/-- Lines 60-69: an item that is a dict with `role == "assistant"`
yields its `content` as a string or through the part loop; anything
else falls through. -/
def assistantHit (es : List (String × PyVal)) : Option (Option String) :=
  match pyGet es "role" with
  | .str r =>
    if r == "assistant" then
      match pyGet es "content" with
      | .str c => Option.some (stripOrNone c)
      | .list parts => scanParts parts
      | _ => Option.none
    else Option.none
  | _ => Option.none

/-- Second item loop over a list output (lines 59-69). -/
def scanItems2 : List PyVal → Option (Option String)
  | [] => Option.none
  | item :: rest =>
    match item with
    | .dict es =>
      match assistantHit es with
      | Option.some r => Option.some r
      | Option.none => scanItems2 rest
    | _ => scanItems2 rest

/-- Lines 77-83: the OpenAI shape `choices[0].message.content`. -/
def choicesHit (es : List (String × PyVal)) : Option (Option String) :=
  match pyGet es "choices" with
  | .list (c0 :: _) =>
    match c0 with
    | .dict c0es =>
      match pyGet c0es "message" with
      | .dict mes =>
        match pyGet mes "content" with
        | .str c => Option.some (stripOrNone c)
        | _ => Option.none
      | _ => Option.none
    | _ => Option.none
  | _ => Option.none

/-- `_extract_text_from_output` (genapi_client.py lines 31-93). -/
def extract_text_from_output : PyVal → Option String
  | .none => Option.none
  | .str s => stripOrNone s
  | .list xs =>
    match xs with
    | .str _ :: _ =>
      stripOrNone (String.intercalate " " (xs.map pyStr))
    | _ =>
      match scanItems1 xs with
      | Option.some r => r
      | Option.none =>
        match scanItems2 xs with
        | Option.some r => r
        | Option.none => Option.none
  | .dict es =>
    match pyOr (pyOr (pyGet es "text") (pyGet es "content"))
        (pyGet es "message") with
    | .str s => stripOrNone s
    | _ =>
      match choicesHit es with
      | Option.some r => r
      | Option.none =>
        match pyGet es "content" with
        | .list parts =>
          match scanParts parts with
          | Option.some r => r
          | Option.none => Option.none
        | _ => Option.none
  | _ => Option.none


/-- C5: the spec's extractor vectors.  A plain string "hello" yields
"hello"; the list ["he","llo"] yields "he llo"; the OpenAI shape
yields "hi"; the content-parts shape yields "x"; and the degenerate
inputs — empty dict, `None`, empty list, any int, any bool, and
malformed nestings (a non-dict `message` under `choices`, a non-string
`message` in a list item) — all yield `None`. -/
theorem extractor_vectors :
    extract_text_from_output (PyVal.str "hello") = Option.some "hello"
    ∧ extract_text_from_output (PyVal.list [PyVal.str "he", PyVal.str "llo"])
        = Option.some "he llo"
    ∧ extract_text_from_output
        (PyVal.dict [("choices", PyVal.list
          [PyVal.dict [("message", PyVal.dict [("content", PyVal.str "hi")])]])])
        = Option.some "hi"
    ∧ extract_text_from_output
        (PyVal.dict [("content", PyVal.list
          [PyVal.dict [("type", PyVal.str "text"), ("text", PyVal.str "x")]])])
        = Option.some "x"
    ∧ extract_text_from_output (PyVal.dict []) = Option.none
    ∧ extract_text_from_output PyVal.none = Option.none
    ∧ extract_text_from_output (PyVal.list []) = Option.none
    ∧ (∀ n : Int, extract_text_from_output (PyVal.int n) = Option.none)
    ∧ (∀ b : Bool, extract_text_from_output (PyVal.bool b) = Option.none)
    ∧ extract_text_from_output
        (PyVal.dict [("choices", PyVal.list
          [PyVal.dict [("message", PyVal.str "hi")]])]) = Option.none
    ∧ extract_text_from_output (PyVal.list [PyVal.dict [("message", PyVal.int 1)]])
        = Option.none :=
  ⟨rfl, rfl, rfl, rfl, rfl, rfl, rfl, fun _ => rfl, fun _ => rfl, rfl, rfl⟩


/-! ### The GenAPI polling loop (genapi_client.py lines 214-249) -/

/-- The outcome of one GET of the status URL inside the poll loop's
`try` block: an HTTP response with status code and decoded JSON body,
or an exception (network error, bad JSON, ...) caught at line 245. -/
inductive PollResp
  | http (code : Nat) (body : PyVal)
  | exn

/-- What processing one decoded body makes the loop do. -/
inductive PollIterResult
  | done (r : Option String)
  | cont

/-- Lines 230-234 for one key: extract text from `data.get(key)`; the
guard `if text:` skips falsy values. -/
def pollKeyText (es : List (String × PyVal)) (k : String) : Option String :=
  match extract_text_from_output (pyGet es k) with
  | Option.some t => if t == "" then Option.none else Option.some t
  | Option.none => Option.none

/-- The first non-`None` element, as the `for key in (...)` loop
returns the first extractable text. -/
def firstSome : List (Option String) → Option String
  | [] => Option.none
  | Option.some t :: _ => Option.some t
  | Option.none :: rest => firstSome rest

/-- Lines 230-241: on success, scan the fields `result`, `output`,
`full_response`, `response` in order and return the first extractable
text (or `None`). -/
def pollSuccessText (es : List (String × PyVal)) : Option String :=
  firstSome
    (["result", "output", "full_response", "response"].map (pollKeyText es))

/-- Lines 226-244: decoding one 200 body.  `status == "success"` ends
the loop with the scanned text; `status == "failed"` ends it with
`None`; any other status continues.  A non-dict body makes
`data.get("status")` raise, which the `except` of line 245 catches, so
it also continues. -/
def pollIter (body : PyVal) : PollIterResult :=
  match body with
  | PyVal.dict es =>
    match pyGet es "status" with
    | PyVal.str s =>
      if s == "success" then PollIterResult.done (pollSuccessText es)
      else if s == "failed" then PollIterResult.done Option.none
      else PollIterResult.cont
    | _ => PollIterResult.cont
  | _ => PollIterResult.cont

/-- The poll loop proper (lines 220-248), with wall-clock time passed
explicitly: time advances only at the `time.sleep(poll_interval)` calls
(network latency is not modelled).  `t` is the current time measured
from the entry of `_poll_until_done`, `deadline` the value computed at
line 219, `k` the index of the next GET.  The first component is the
returned value; the second records the times at which GETs are issued.
`fuel` bounds the recursion and is chosen large enough at the top level
that it cannot run out before the deadline.  A non-200 response returns
`None` at line 225; an exception is caught at line 245 and the loop
sleeps and retries. -/
def pollGo (interval deadline : ℚ) (responses : Nat → PollResp) :
    Nat → ℚ → Nat → Option String × List ℚ
  | 0, _, _ => (Option.none, [])
  | fuel + 1, t, k =>
    if t < deadline then
      match responses k with
      | PollResp.exn =>
        let step := pollGo interval deadline responses fuel (t + interval) (k + 1)
        (step.1, t :: step.2)
      | PollResp.http code body =>
        if code ≠ 200 then (Option.none, [t])
        else
          match pollIter body with
          | PollIterResult.done r => (r, [t])
          | PollIterResult.cont =>
            let step := pollGo interval deadline responses fuel (t + interval) (k + 1)
            (step.1, t :: step.2)
    else (Option.none, [])

/-- `GenAPIClient._poll_until_done` (lines 214-249): one initial sleep
of `poll_interval` (line 218), then the deadline is set `poll_max_wait`
later (line 219) and the check loop runs. -/
def poll_until_done (interval maxWait : ℚ) (responses : Nat → PollResp) :
    Option String × List ℚ :=
  pollGo interval (interval + maxWait) responses
    ((Int.ceil (maxWait / interval)).toNat + 1) interval 0

/-- A poll response that neither ends nor aborts the loop: an exception
(caught at line 245), or a 200 response whose body does not reach a
terminal status. -/
def isTransient : PollResp → Bool
  | PollResp.exn => true
  | PollResp.http code body =>
    code == 200 &&
      (match pollIter body with
       | PollIterResult.cont => true
       | PollIterResult.done _ => false)

theorem pollGo_trace_lt (interval deadline : ℚ)
    (responses : Nat → PollResp) :
    ∀ fuel t k s, s ∈ (pollGo interval deadline responses fuel t k).2 →
      s < deadline := by
  intro fuel
  induction fuel with
  | zero =>
    intro t k s hs
    simp [pollGo] at hs
  | succ n ih =>
    intro t k s hs
    simp only [pollGo] at hs
    by_cases ht : t < deadline
    · rw [if_pos ht] at hs
      cases hresp : responses k with
      | exn =>
        rw [hresp] at hs
        simp only [List.mem_cons] at hs
        rcases hs with rfl | hs
        · exact ht
        · exact ih _ _ s hs
      | http code body =>
        rw [hresp] at hs
        dsimp only at hs
        by_cases h200 : code ≠ 200
        · rw [if_pos h200] at hs
          simp only [List.mem_singleton] at hs
          subst hs
          exact ht
        · rw [if_neg h200] at hs
          cases hit : pollIter body with
          | done r =>
            rw [hit] at hs
            simp only [List.mem_singleton] at hs
            subst hs
            exact ht
          | cont =>
            rw [hit] at hs
            simp only [List.mem_cons] at hs
            rcases hs with rfl | hs
            · exact ht
            · exact ih _ _ s hs
    · rw [if_neg ht] at hs
      simp at hs

theorem pollGo_transient_none (interval deadline : ℚ)
    (responses : Nat → PollResp)
    (htr : ∀ k, isTransient (responses k) = true) :
    ∀ fuel t k, (pollGo interval deadline responses fuel t k).1
      = Option.none := by
  intro fuel
  induction fuel with
  | zero => intro t k; rfl
  | succ n ih =>
    intro t k
    by_cases ht : t < deadline
    · have h := htr k
      cases hresp : responses k with
      | exn =>
        simp only [pollGo, if_pos ht, hresp]
        exact ih _ _
      | http code body =>
        rw [hresp] at h
        unfold isTransient at h
        dsimp only at h
        cases hit : pollIter body with
        | done r =>
          rw [hit] at h
          simp at h
        | cont =>
          rw [hit] at h
          simp only [Bool.and_true, beq_iff_eq] at h
          subst h
          simp only [pollGo, if_pos ht, hresp, hit]
          rw [if_neg (by simp)]
          exact ih _ _
    · simp [pollGo, if_neg ht]

/-- C4: the `_poll_until_done` loop sleeps one `poll_interval` before
its first status check — the first GET is issued exactly `interval`
after entry — every GET is issued strictly before the wall-clock
deadline (`poll_max_wait` after the check loop starts, line 219), and
for every run in which no poll response reaches a terminal status
before the deadline (all responses transient), the call returns `None`
(`PollTimeout`). -/
theorem poll_loop_spec (interval maxWait : ℚ)
    (responses : Nat → PollResp)
    (hw : 0 < maxWait)
    (htr : ∀ k, isTransient (responses k) = true) :
    (poll_until_done interval maxWait responses).2.head?
        = Option.some interval
    ∧ (∀ s ∈ (poll_until_done interval maxWait responses).2,
        s < interval + maxWait)
    ∧ (poll_until_done interval maxWait responses).1 = Option.none := by
  refine ⟨?_, ?_, ?_⟩
  · unfold poll_until_done
    simp only [pollGo]
    have ht : interval < interval + maxWait := by linarith
    rw [if_pos ht]
    cases responses 0 with
    | exn => rfl
    | http code body =>
      dsimp only
      split
      · rfl
      · cases pollIter body with
        | done r => rfl
        | cont => rfl
  · intro s hs
    exact pollGo_trace_lt interval (interval + maxWait) responses _ _ _ s hs
  · exact pollGo_transient_none interval (interval + maxWait) responses htr _ _ _

/-- Applying `poll_loop_spec` with every poll raising a (caught)
exception: the loop checks first at time `interval` and times out with
`None`. -/
theorem poll_loop_spec_witness :
    (poll_until_done 2 3 (fun _ => PollResp.exn)).2.head? = Option.some 2
    ∧ (poll_until_done 2 3 (fun _ => PollResp.exn)).1 = Option.none :=
  ⟨(poll_loop_spec 2 3 (fun _ => PollResp.exn) (by norm_num)
      (fun _ => rfl)).1,
   (poll_loop_spec 2 3 (fun _ => PollResp.exn) (by norm_num)
      (fun _ => rfl)).2.2⟩


/-! ### The GenAPI submit dispatch (genapi_client.py lines 139-212) -/

/-- The outcome of the submit POST (line 166) together with body
decoding: an HTTP response with status code and decoded JSON body, or
an exception (timeout / request error / bad JSON / ...) caught at
lines 204-212. -/
inductive SubmitResp
  | http (code : Nat) (body : PyVal)
  | exn

/-- Lines 197-202: read `request_id`; `None` (missing id) returns
`None`, anything else hands over to the poll phase. -/
def submitPollBranch (es : List (String × PyVal))
    (pollFn : PyVal → Option String) : Option String :=
  match pyGet es "request_id" with
  | PyVal.none => Option.none
  | rid => pollFn rid

/-- `GenAPIClient.generate_response` after the submit POST
(lines 168-202), with the poll phase abstracted as `pollFn` (the call
`self._poll_until_done(request_id)` at line 202).  HTTP 404 / 401 / 402
and any other status ≥ 400 return `None` (lines 168-179); a body with
status success returns the text extracted from `output` when truthy and
`None` otherwise (lines 184-190); status failed returns `None`
(lines 192-194); any other status goes to `submitPollBranch`.  A
non-dict body makes `data.get` raise, caught at line 210: `None`.  A
raised request exception returns `None` (lines 204-212). -/
def generate_response_submit (submit : SubmitResp)
    (pollFn : PyVal → Option String) : Option String :=
  match submit with
  | SubmitResp.exn => Option.none
  | SubmitResp.http code body =>
    if code = 404 then Option.none
    else if code = 401 then Option.none
    else if code = 402 then Option.none
    else if 400 ≤ code then Option.none
    else
      match body with
      | PyVal.dict es =>
        match pyGet es "status" with
        | PyVal.str st =>
          if st = "success" then
            match extract_text_from_output (pyGet es "output") with
            | Option.some t =>
              if t = "" then Option.none else Option.some t
            | Option.none => Option.none
          else if st = "failed" then Option.none
          else submitPollBranch es pollFn
        | _ => submitPollBranch es pollFn
      | _ => Option.none

/-- C6: every HTTP status ≥ 400 (401, 402, 404 included) is a terminal
failure with no retry; below 400, a body with status success yields the
text extracted from the `output` field (or `None` when nothing is
extractable); status failed yields `None`; any other status hands over
to polling with the returned `request_id`; and a missing (`None`)
`request_id` yields `None` (`MissingRequestId`). -/
theorem submit_dispatch (pollFn : PyVal → Option String) :
    (∀ code body, 400 ≤ code →
      generate_response_submit (SubmitResp.http code body) pollFn
        = Option.none)
    ∧ (∀ code es t, code < 400 →
      pyGet es "status" = PyVal.str "success" →
      extract_text_from_output (pyGet es "output") = Option.some t →
      t ≠ "" →
      generate_response_submit (SubmitResp.http code (PyVal.dict es)) pollFn
        = Option.some t)
    ∧ (∀ code es, code < 400 →
      pyGet es "status" = PyVal.str "success" →
      extract_text_from_output (pyGet es "output") = Option.none →
      generate_response_submit (SubmitResp.http code (PyVal.dict es)) pollFn
        = Option.none)
    ∧ (∀ code es, code < 400 →
      pyGet es "status" = PyVal.str "failed" →
      generate_response_submit (SubmitResp.http code (PyVal.dict es)) pollFn
        = Option.none)
    ∧ (∀ code es st, code < 400 →
      pyGet es "status" = st →
      st ≠ PyVal.str "success" → st ≠ PyVal.str "failed" →
      pyGet es "request_id" ≠ PyVal.none →
      generate_response_submit (SubmitResp.http code (PyVal.dict es)) pollFn
        = pollFn (pyGet es "request_id"))
    ∧ (∀ code es st, code < 400 →
      pyGet es "status" = st →
      st ≠ PyVal.str "success" → st ≠ PyVal.str "failed" →
      pyGet es "request_id" = PyVal.none →
      generate_response_submit (SubmitResp.http code (PyVal.dict es)) pollFn
        = Option.none) := by
  refine ⟨?_, ?_, ?_, ?_, ?_, ?_⟩
  · intro code body hge
    unfold generate_response_submit
    dsimp only
    by_cases h1 : code = 404
    · rw [if_pos h1]
    · rw [if_neg h1]
      by_cases h2 : code = 401
      · rw [if_pos h2]
      · rw [if_neg h2]
        by_cases h3 : code = 402
        · rw [if_pos h3]
        · rw [if_neg h3, if_pos hge]
  · intro code es t hlt hst hext ht
    unfold generate_response_submit
    dsimp only
    rw [if_neg (by omega), if_neg (by omega), if_neg (by omega),
        if_neg (by omega)]
    rw [hst]
    dsimp only
    rw [if_pos rfl, hext]
    dsimp only
    rw [if_neg ht]
  · intro code es hlt hst hext
    unfold generate_response_submit
    dsimp only
    rw [if_neg (by omega), if_neg (by omega), if_neg (by omega),
        if_neg (by omega)]
    rw [hst]
    dsimp only
    rw [if_pos rfl, hext]
  · intro code es hlt hst
    unfold generate_response_submit
    dsimp only
    rw [if_neg (by omega), if_neg (by omega), if_neg (by omega),
        if_neg (by omega)]
    rw [hst]
    dsimp only
    rw [if_neg (by decide), if_pos rfl]
  · intro code es st hlt hst hsucc hfail hrid
    unfold generate_response_submit
    dsimp only
    rw [if_neg (by omega), if_neg (by omega), if_neg (by omega),
        if_neg (by omega)]
    rw [hst]
    have hpoll : submitPollBranch es pollFn
        = pollFn (pyGet es "request_id") := by
      unfold submitPollBranch
      cases hr : pyGet es "request_id" with
      | none => exact (hrid hr).elim
      | bool b => rfl
      | int n => rfl
      | str s2 => rfl
      | list xs => rfl
      | dict es2 => rfl
    cases st with
    | str s2 =>
      dsimp only
      rw [if_neg (fun h => hsucc (by rw [h])),
          if_neg (fun h => hfail (by rw [h]))]
      exact hpoll
    | none => exact hpoll
    | bool b => exact hpoll
    | int n => exact hpoll
    | list xs => exact hpoll
    | dict es2 => exact hpoll
  · intro code es st hlt hst hsucc hfail hrid
    unfold generate_response_submit
    dsimp only
    rw [if_neg (by omega), if_neg (by omega), if_neg (by omega),
        if_neg (by omega)]
    rw [hst]
    have hpoll : submitPollBranch es pollFn = Option.none := by
      unfold submitPollBranch
      rw [hrid]
    cases st with
    | str s2 =>
      dsimp only
      rw [if_neg (fun h => hsucc (by rw [h])),
          if_neg (fun h => hfail (by rw [h]))]
      exact hpoll
    | none => exact hpoll
    | bool b => exact hpoll
    | int n => exact hpoll
    | list xs => exact hpoll
    | dict es2 => exact hpoll

/-- Applying `submit_dispatch` at concrete inputs: an HTTP 401 fails
terminally, and a processing status with `request_id = 42` hands over
to the poll phase. -/
theorem submit_dispatch_witness :
    generate_response_submit (SubmitResp.http 401 (PyVal.dict []))
        (fun _ => Option.some "polled") = Option.none
    ∧ generate_response_submit
        (SubmitResp.http 200
          (PyVal.dict [("status", PyVal.str "processing"),
                       ("request_id", PyVal.int 42)]))
        (fun _ => Option.some "polled") = Option.some "polled" :=
  ⟨(submit_dispatch (fun _ => Option.some "polled")).1 401 (PyVal.dict [])
      (by omega),
   ((submit_dispatch (fun _ => Option.some "polled")).2.2.2.2.1 200
      [("status", PyVal.str "processing"), ("request_id", PyVal.int 42)]
      (PyVal.str "processing") (by omega) rfl
      (fun h => by injection h with h2; exact absurd h2 (by decide))
      (fun h => by injection h with h2; exact absurd h2 (by decide))
      (fun h => by exact PyVal.noConfusion h)).trans rfl⟩

/-! ### The exception boundary of the sync clients
(ollama_client.py, openai_client.py, deepseek_client.py,
proxyapi_client.py) -/

/-- Exception kinds that can be raised inside `generate_response` (all
model subclasses of Python `Exception`; `BaseException`s such as
KeyboardInterrupt are out of scope). -/
inductive PyExc
  | timeout
  | connectionError
  | httpError
  | requestException
  | keyError
  | attributeError
  | valueError
  | indexError
  | authenticationError
  | rateLimitError
  | apiError
  | otherError
deriving DecidableEq, Repr

/-- Python `d.get(k, default)`. -/
def pyGetD (es : List (String × PyVal)) (k : String) (d : PyVal) : PyVal :=
  match es.find? (fun p => p.1 == k) with
  | Option.some p => p.2
  | Option.none => d

/-- Outcome of `requests.post` in ollama_client.py line 55: an
exception, or a response with status code and decoded JSON body (a
body-decoding error is one of the exception cases). -/
inductive OllamaCall
  | raiseExc (e : PyExc)
  | resp (status : Nat) (body : PyVal)

namespace OllamaClient

/-- The `try` body of `OllamaClient.generate_response` (lines 38-65):
`raise_for_status` raises on a status ≥ 400; then
`result.get("message", \x7b\x7d).get("content")` is returned — an
`AttributeError` when the body or the `message` value is not a dict. -/
def tryBody (call : OllamaCall) : Except PyExc PyVal :=
  match call with
  | OllamaCall.raiseExc e => Except.error e
  | OllamaCall.resp status body =>
    if 400 ≤ status then Except.error PyExc.httpError
    else
      match body with
      | PyVal.dict es =>
        match pyGetD es "message" (PyVal.dict []) with
        | PyVal.dict mes => Except.ok (pyGet mes "content")
        | _ => Except.error PyExc.attributeError
      | _ => Except.error PyExc.attributeError

/-- `OllamaClient.generate_response` (lines 19-85): the `try` body
followed by the `except` chain of lines 67-85 — `Timeout`,
`ConnectionError`, `HTTPError`, `RequestException`, `KeyError`, and the
final `except Exception`, every clause returning `None`. -/
def generate_response (call : OllamaCall) : Except PyExc PyVal :=
  match tryBody call with
  | Except.ok v => Except.ok v
  | Except.error e =>
    if e = PyExc.timeout then Except.ok PyVal.none
    else if e = PyExc.connectionError then Except.ok PyVal.none
    else if e = PyExc.httpError then Except.ok PyVal.none
    else if e = PyExc.requestException then Except.ok PyVal.none
    else if e = PyExc.keyError then Except.ok PyVal.none
    else Except.ok PyVal.none

end OllamaClient

/-- The SDK message object of the OpenAI-compatible clients:
`content : Optional[str]`. -/
structure ChatMessage where
  content : Option String

/-- One element of `response.choices`. -/
structure ChatChoice where
  message : ChatMessage

/-- Outcome of `client.chat.completions.create` in openai_client.py
line 61 (identically deepseek_client.py line 70 and proxyapi_client.py
line 72): an exception, or a response object with its choices list. -/
inductive CreateOutcome
  | raiseExc (e : PyExc)
  | result (choices : List ChatChoice)

/-- The `try` body of the OpenAI-style `generate_response`:
`response.choices[0].message.content` — an `IndexError` on an empty
choices list. -/
def openaiStyleTryBody (call : CreateOutcome) :
    Except PyExc (Option String) :=
  match call with
  | CreateOutcome.raiseExc e => Except.error e
  | CreateOutcome.result [] => Except.error PyExc.indexError
  | CreateOutcome.result (c :: _) => Except.ok c.message.content

/-- `generate_response` of openai_client.py lines 29-76 (identically
deepseek_client.py lines 38-84 and proxyapi_client.py lines 39-92): the
`try` body followed by the `except` chain — `AuthenticationError`,
`RateLimitError`, `APIError`, and the final `except Exception`, every
clause returning `None`. -/
def openaiStyleGenerate (call : CreateOutcome) :
    Except PyExc (Option String) :=
  match openaiStyleTryBody call with
  | Except.ok v => Except.ok v
  | Except.error e =>
    if e = PyExc.authenticationError then Except.ok Option.none
    else if e = PyExc.rateLimitError then Except.ok Option.none
    else if e = PyExc.apiError then Except.ok Option.none
    else Except.ok Option.none

/-- C7: no provider client lets an exception escape
`generate_response`: for every call outcome the result is an ordinary
value (never an uncaught error), and every raised Exception-class
failure — authentication, rate limit, API error, connection failure,
timeout, malformed payload — becomes the absence-of-result value.  The
GenAPI client returns `None` on a raised submit exception (and is total
by construction). -/
theorem clients_never_raise :
    (∀ call, ∃ v, OllamaClient.generate_response call = Except.ok v)
    ∧ (∀ e, OllamaClient.generate_response (OllamaCall.raiseExc e)
        = Except.ok PyVal.none)
    ∧ (∀ call, ∃ v, openaiStyleGenerate call = Except.ok v)
    ∧ (∀ e, openaiStyleGenerate (CreateOutcome.raiseExc e)
        = Except.ok Option.none)
    ∧ (∀ pollFn, generate_response_submit SubmitResp.exn pollFn
        = Option.none) := by
  have hollama : ∀ e, OllamaClient.generate_response (OllamaCall.raiseExc e)
      = Except.ok PyVal.none := by
    intro e
    unfold OllamaClient.generate_response OllamaClient.tryBody
    dsimp only
    split_ifs <;> rfl
  have hoai : ∀ e, openaiStyleGenerate (CreateOutcome.raiseExc e)
      = Except.ok Option.none := by
    intro e
    unfold openaiStyleGenerate openaiStyleTryBody
    dsimp only
    split_ifs <;> rfl
  refine ⟨?_, hollama, ?_, hoai, fun _ => rfl⟩
  · intro call
    cases hb : OllamaClient.tryBody call with
    | ok v =>
      exact ⟨v, by unfold OllamaClient.generate_response; rw [hb]⟩
    | error e =>
      refine ⟨PyVal.none, ?_⟩
      unfold OllamaClient.generate_response
      rw [hb]
      dsimp only
      split_ifs <;> rfl
  · intro call
    cases hb : openaiStyleTryBody call with
    | ok v =>
      exact ⟨v, by unfold openaiStyleGenerate; rw [hb]⟩
    | error e =>
      refine ⟨Option.none, ?_⟩
      unfold openaiStyleGenerate
      rw [hb]
      dsimp only
      split_ifs <;> rfl

end AiChatBot
